import Mathlib

/- Verification development for the About Me download/publish pipeline
   (scripts/codio_downloader_images.py and scripts/publish_about_me.py).

   The Python sources are shallowly embedded: pure string/path functions
   become Lean functions over `String`/`List Char`; wall-clock time is an
   explicit rational parameter, `time.sleep` advances it exactly, and each
   `time.time()` reads the current value; the filesystem is a list of
   resolved paths; fallible external effects (the HTTP download of one
   student's export) are supplied as explicit outcome oracles. -/

namespace AboutMe

/-! ## String helpers: Python `str.strip` and `str.split` semantics -/

/-- Python `str.strip()` on a list of characters: drop whitespace from both ends. -/
def pyStripList (l : List Char) : List Char :=
  ((l.dropWhile Char.isWhitespace).reverse.dropWhile Char.isWhitespace).reverse

/-- Python `str.strip()`. -/
def pyStrip (s : String) : String := ⟨pyStripList s.data⟩

/-- Split on maximal runs of separator characters, discarding empty pieces
    (the behaviour of Python `str.split()` with no argument, and of
    `pathlib`'s component splitting for `/`). `acc` holds the current piece
    reversed. -/
def splitRunsAux (p : Char → Bool) : List Char → List Char → List (List Char)
  | [], acc => if acc.isEmpty then [] else [acc.reverse]
  | c :: cs, acc =>
    if p c then
      if acc.isEmpty then splitRunsAux p cs []
      else acc.reverse :: splitRunsAux p cs []
    else splitRunsAux p cs (c :: acc)

/-- Python `str.split()` (split on whitespace runs, no empty parts). -/
def pySplitWs (s : String) : List String :=
  (splitRunsAux Char.isWhitespace s.data []).map fun l => ⟨l⟩

/-- Split a POSIX path string on `/` runs (empty components vanish). -/
def splitSlash (s : String) : List String :=
  (splitRunsAux (fun c => c == '/') s.data []).map fun l => ⟨l⟩

/-- Python `str.lower()` (ASCII data in this pipeline). -/
def lowerStr (s : String) : String := ⟨s.data.map Char.toLower⟩

/-! ## publish_about_me.py: display names (PREFERRED_NAMES, SPECIAL_NAME_CASES,
    parse_display_name) -/

/-- Preferred name mappings for privacy-friendly display (module-level dict). -/
def PREFERRED_NAMES : List (String × String) :=
  [("Alexander", "Alex"), ("Ann-Tarah", "Annie"), ("Finnegan", "Finn"),
   ("Jonathan", "Julian"), ("Nicolas", "Nico"), ("Shiyang", "April")]

/-- Special case full-name overrides (module-level dict). -/
def SPECIAL_NAME_CASES : List (String × String) :=
  [("Michael Holland", "Micky H"), ("Michael H", "Micky H")]

/-- Python `dict.get(k)` over the literal dicts above (keys are distinct,
    so first-match lookup is dict lookup). -/
def dictGet (d : List (String × String)) (k : String) : Option String :=
  (d.find? fun kv => kv.fst == k).map fun kv => kv.snd

/-- Python `parse_display_name` (publish_about_me.py lines 18-41). -/
def parse_display_name (full_name : String) : String :=
  if full_name = "" ∨ pyStrip full_name = "" then "Unknown Student"
  else
    match dictGet SPECIAL_NAME_CASES (pyStrip full_name) with
    | some v => v
    | none =>
      match pySplitWs (pyStrip full_name) with
      | [] => "Unknown Student"
        -- unreachable: a non-empty stripped name always splits into ≥ 1 part
      | [single] => (dictGet PREFERRED_NAMES single).getD single
      | p0 :: p1 :: ps =>
        let lastPart := List.getLastD ps p1
        let lastInitial : String :=
          match lastPart.data with
          | [] => ""
          | c :: _ => ⟨[c.toUpper]⟩
        let preferredFirst := (dictGet PREFERRED_NAMES p0).getD p0
        if lastInitial = "" then preferredFirst
        else preferredFirst ++ " " ++ lastInitial

/-! ## publish_about_me.py: sanitize_name and slugify -/

/-- The characters removed by `re.sub(r'[<>:"/\\|?*]', '', ...)`. -/
def WINDOWS_UNSAFE : List Char := ['<', '>', ':', '"', '/', '\\', '|', '?', '*']

/-- Python `sanitize_name` (publish_about_me.py lines 187-192): replace spaces with
    underscores, strip the unsafe characters, drop non-ASCII codepoints
    (`encode('ascii','ignore')`), fall back to "unknown" when empty. -/
def sanitize_name (name : String) : String :=
  let s1 := name.data.map fun c => if c = ' ' then '_' else c
  let s2 := s1.filter fun c => !(WINDOWS_UNSAFE.contains c)
  let s3 := s2.filter fun c => decide (c.toNat < 128)
  if s3.isEmpty then "unknown" else ⟨s3⟩

/-- A filesystem-safe character: not a space, not one of the characters
    `sanitize_name` strips, and ASCII. -/
def okChar (c : Char) : Bool :=
  !(decide (c = ' ')) && !(WINDOWS_UNSAFE.contains c) && decide (c.toNat < 128)

/-- A character matched by the regex class `[-\s]`. -/
def dashRun (c : Char) : Bool := c == '-' || c.isWhitespace

/-- Python `re.sub(r'[-\s]+', '-', ...)`: each maximal `[-\s]` run becomes one dash.
    The flag records whether we are inside such a run. -/
def collapseRunsAux : Bool → List Char → List Char
  | _, [] => []
  | inRun, c :: cs =>
    if dashRun c then
      if inRun then collapseRunsAux true cs
      else '-' :: collapseRunsAux true cs
    else c :: collapseRunsAux false cs

/-- Python `slugify` (publish_about_me.py lines 195-200): lowercase and strip, keep
    only `[\w\s-]`, collapse `[-\s]+` runs to a single dash. -/
def slugify (text : String) : String :=
  let t := pyStrip (lowerStr text)
  let kept := t.data.filter fun c =>
    c.isAlphanum || c == '_' || c.isWhitespace || c == '-'
  ⟨collapseRunsAux false kept⟩

/-! ## Paths (pathlib semantics needed by the extractor) -/

/-- A POSIX path: absolute flag plus components, as `pathlib.PurePosixPath`
    stores it (components may still contain `.` and `..`). -/
structure PurePath where
  absolute : Bool
  comps : List String
deriving DecidableEq

/-- Parse a path string the way `pathlib.Path(...)` does: a leading `/` makes
    it absolute, `/` runs separate components. -/
def parsePath (s : String) : PurePath :=
  { absolute := match s.data with | '/' :: _ => true | _ => false
    comps := splitSlash s }

/-- Python `Path.__truediv__`: an absolute right operand replaces the left one. -/
def joinPath (base other : PurePath) : PurePath :=
  if other.absolute then other
  else { absolute := base.absolute, comps := base.comps ++ other.comps }

/-- Normalisation performed by `Path.resolve()` on an absolute path with no
    symlinks: `.` disappears, `..` pops a component (staying at the root). -/
def normComps : List String → List String :=
  List.foldl
    (fun acc c => if c = "." then acc else if c = ".." then acc.dropLast else acc ++ [c])
    []

/-- Python `Path.resolve()` (symlink-free idealisation; used on absolute paths). -/
def resolveP (p : PurePath) : PurePath := { absolute := p.absolute, comps := normComps p.comps }

/-- Predicate `leadsList a b`: the list `a` is an initial segment of `b`. -/
def leadsList [BEq α] : List α → List α → Bool
  | [], _ => true
  | _ :: _, [] => false
  | a :: as, b :: bs => a == b && leadsList as bs

/-- Python `Path.is_relative_to(base)`: the base's components lead the path's. -/
def isRelTo (p base : PurePath) : Bool :=
  p.absolute == base.absolute && leadsList base.comps p.comps

/-- Python `pat in s` for strings: `pat` occurs contiguously in `s`. -/
def hasRunList [BEq α] : List α → List α → Bool
  | pat, [] => pat.isEmpty
  | pat, c :: cs => leadsList pat (c :: cs) || hasRunList pat cs

/-! ## codio_downloader_images.py: configuration constants (class Config) -/

def BURST_RATE_LIMIT : ℕ := 50
def BURST_WINDOW : ℚ := 10
def DAILY_LIMIT : ℕ := 10000
def MAX_RETRIES : ℕ := 5
def TOKEN_EXPIRY_BUFFER : ℚ := 300

/-! ## codio_downloader_images.py: tar extraction (_extract_tar_inclusive,
    _extract_assignment) -/

/-- Default exclusion patterns of `_extract_tar_inclusive`. -/
def DEFAULT_EXCLUDES : List String := [".git", ".guides", ".codio"]

/-- An archive member: its stored name, and whether `tar.extract` on it
    raises (the per-member failure oracle, e.g. a corrupt entry). -/
structure TarMember where
  name : String
  corrupt : Bool
deriving DecidableEq

/-- The destination a member resolves to:
    `(Path(dest_dir) / member.name).resolve()`. -/
def memberDest (dest : PurePath) (m : TarMember) : PurePath :=
  resolveP (joinPath dest (parsePath m.name))

/-- Python `if pattern in member.name or member.name.startswith(pattern)`. -/
def shouldExclude (name : String) (globs : List String) : Bool :=
  globs.any fun pat => hasRunList pat.data name.data || leadsList pat.data name.data

/-- One loop iteration of `_extract_tar_inclusive` (lines 379-402): the
    accumulator is (files written so far, warnings logged so far). -/
def extractStep (dest : PurePath) (globs : List String)
    (acc : List PurePath × List String) (m : TarMember) : List PurePath × List String :=
  let mp := memberDest dest m
  if !(isRelTo mp (resolveP dest)) then
    (acc.1, acc.2 ++ ["Skipping potentially unsafe path: " ++ m.name])
  else if shouldExclude m.name globs then acc
  else if m.corrupt then
    (acc.1, acc.2 ++ ["Failed to extract " ++ m.name])
  else (acc.1 ++ [mp], acc.2)

/-- Method `_extract_tar_inclusive`: fold the per-member step over all members;
    returns the resolved paths written under `dest` and the warnings. -/
def extract_tar_inclusive (dest : PurePath) (globs : List String)
    (members : List TarMember) : List PurePath × List String :=
  members.foldl (extractStep dest globs) ([], [])

/-- The file (if any) `_extract_tar_inclusive` writes for one member: its
    resolved destination when the member passes the containment check, is not
    excluded, and its extraction does not fail. -/
def keptMember (dest : PurePath) (globs : List String) (m : TarMember) : Option PurePath :=
  if isRelTo (memberDest dest m) (resolveP dest) && !(shouldExclude m.name globs)
      && !m.corrupt then
    some (memberDest dest m)
  else none

/-- The warning (if any) `_extract_tar_inclusive` logs for one member. -/
def warnOfMember (dest : PurePath) (globs : List String) (m : TarMember) : Option String :=
  if !(isRelTo (memberDest dest m) (resolveP dest)) then
    some ("Skipping potentially unsafe path: " ++ m.name)
  else if shouldExclude m.name globs then none
  else if m.corrupt then some ("Failed to extract " ++ m.name)
  else none

/-- The filesystem as the set (list) of resolved file paths present. -/
abbrev FS := List PurePath

/-- Python `shutil.rmtree(dest_dir)`: every path at or under `dest` disappears. -/
def removeTree (dest : PurePath) (fs : FS) : FS :=
  fs.filter fun p => !(isRelTo p dest)

/-- Method `_extract_assignment` (lines 322-340): clear the destination, recreate it,
    then extract (a `.zst` archive is first decompressed by the external
    `zstd` into a tar holding the same members; the intermediate tar is a
    sibling temp file deleted afterwards). Errors carry the filesystem as
    mutated before the raise. -/
def extract_assignment (suffix : String) (members : List TarMember)
    (dest : PurePath) (fs : FS) : Except (String × FS) (FS × List String) :=
  let fs1 := removeTree dest fs
  if suffix = ".zst" ∨ suffix = ".tar" then
    let r := extract_tar_inclusive dest DEFAULT_EXCLUDES members
    Except.ok (fs1 ++ r.1, r.2)
  else Except.error ("Unsupported archive format: " ++ suffix, fs1)

/-! ## publish_about_me.py: entry-page search (find_entry_page) -/

/-- A directory tree: the plain files it holds and its named subdirectories
    (in `iterdir()` order). -/
inductive DirTree where
  | node (files : List String) (subdirs : List (String × DirTree))

def DirTree.files : DirTree → List String
  | node fs _ => fs

def DirTree.subdirs : DirTree → List (String × DirTree)
  | node _ ds => ds

/-- Search patterns for the main page. -/
def patternsMain : List String :=
  ["index.html", "Index.html", "INDEX.HTML", "index.htm", "Index.htm"]

/-- Fallback patterns, checked in the root only. -/
def fallbackPatterns : List String := ["home.html", "start.html", "main.html"]

/-- First pattern of `pats` that exists as a file of `files`. -/
def firstFileHit (files pats : List String) : Option String :=
  pats.find? fun p => files.contains p

/-- A name Python's `startswith('.')` treats as hidden. -/
def hiddenName (s : String) : Bool :=
  match s.data with | '.' :: _ => true | _ => false

/-- The inner `for subsubdir in subdir.iterdir()` loop of `find_entry_page`:
    depth-2 check under one first-level subdirectory `parent`. -/
def searchSub2 (parent : String) : List (String × DirTree) → Option (String × String)
  | [] => none
  | (n, t) :: rest =>
    if hiddenName n then searchSub2 parent rest
    else
      match firstFileHit t.files patternsMain with
      | some p => some (parent ++ "/" ++ n, p)
      | none => searchSub2 parent rest

/-- The outer `for subdir in project_dir.iterdir()` loop: each first-level
    subdirectory is checked, then ITS subdirectories, before moving on. -/
def searchSub1 : List (String × DirTree) → Option (String × String)
  | [] => none
  | (n, t) :: rest =>
    if hiddenName n then searchSub1 rest
    else
      match firstFileHit t.files patternsMain with
      | some p => some (n, p)
      | none =>
        match searchSub2 n t.subdirs with
        | some r => some r
        | none => searchSub1 rest

/-- Python `find_entry_page` (publish_about_me.py lines 205-241). -/
def find_entry_page (tree : DirTree) : Option (String × String) :=
  match firstFileHit tree.files patternsMain with
  | some p => some ("", p)
  | none =>
    match searchSub1 tree.subdirs with
    | some r => some r
    | none =>
      match firstFileHit tree.files fallbackPatterns with
      | some p => some ("", p)
      | none => none

/-- The probe sequence `find_entry_page` actually performs, in order: root
    candidates, then depth-first per first-level subdirectory (its own
    candidates, then its subdirectories'), then the fallback names at the
    root. Each probe records its relative path, filename, and whether the
    file exists. -/
def dfsProbes (tree : DirTree) : List (String × String × Bool) :=
  (patternsMain.map fun p => ("", p, tree.files.contains p))
    ++ ((tree.subdirs.filter fun nt => !(hiddenName nt.fst)).flatMap fun nt =>
          (patternsMain.map fun p => (nt.fst, p, nt.snd.files.contains p))
            ++ ((nt.snd.subdirs.filter fun nt2 => !(hiddenName nt2.fst)).flatMap fun nt2 =>
                  patternsMain.map fun p =>
                    (nt.fst ++ "/" ++ nt2.fst, p, nt2.snd.files.contains p)))
    ++ (fallbackPatterns.map fun p => ("", p, tree.files.contains p))

/-- First successful probe of a probe list. -/
def firstPresent (l : List (String × String × Bool)) : Option (String × String) :=
  (l.find? fun x => x.2.2).map fun x => (x.1, x.2.1)

/-- Modelled from the spec's wording for comparison: "checked first at the
    directory root, then one level of subdirectories, then two levels, then a
    fallback set ... at the root only — first match wins": ALL first-level
    subdirectories are checked before ANY second-level one. -/
def specOrderProbes (tree : DirTree) : List (String × String × Bool) :=
  (patternsMain.map fun p => ("", p, tree.files.contains p))
    ++ ((tree.subdirs.filter fun nt => !(hiddenName nt.fst)).flatMap fun nt =>
          patternsMain.map fun p => (nt.fst, p, nt.snd.files.contains p))
    ++ ((tree.subdirs.filter fun nt => !(hiddenName nt.fst)).flatMap fun nt =>
          (nt.snd.subdirs.filter fun nt2 => !(hiddenName nt2.fst)).flatMap fun nt2 =>
            patternsMain.map fun p =>
              (nt.fst ++ "/" ++ nt2.fst, p, nt2.snd.files.contains p))
    ++ (fallbackPatterns.map fun p => ("", p, tree.files.contains p))

/-- The spec-order search: first match over `specOrderProbes`. -/
def specEntrySearch (tree : DirTree) : Option (String × String) :=
  firstPresent (specOrderProbes tree)

/-! ## codio_downloader_images.py: RateLimiter

    Time is an explicit rational clock: `time.sleep(d)` advances it by
    exactly `d`, each `time.time()` reads the current value, and nothing
    else consumes time. -/

/-- RateLimiter state: `request_times` (oldest first), `daily_count`,
    `daily_reset_time`. -/
structure RLState where
  request_times : List ℚ
  daily_count : ℕ
  daily_reset_time : ℚ
deriving DecidableEq

/-- Python `RateLimiter.__init__` at clock `now`. -/
def initRL (now : ℚ) : RLState :=
  { request_times := [], daily_count := 0, daily_reset_time := now + 86400 }

/-- Python `while self.request_times and self.request_times[0] < cutoff: popleft()`. -/
def dropOld (cutoff : ℚ) : List ℚ → List ℚ
  | [] => []
  | t :: ts => if t < cutoff then dropOld cutoff ts else t :: ts

/-- The daily-counter reset check (`if now >= self.daily_reset_time`). -/
def dailyAdjust (s : RLState) (now : ℚ) : ℕ × ℚ :=
  if s.daily_reset_time ≤ now then (0, now + 86400)
  else (s.daily_count, s.daily_reset_time)

/-- The daily-limit wait (`if self.daily_count >= self.daily_limit`): sleep
    until `daily_reset_time` (so the clock becomes `dr`), reset the counter
    and push the reset instant forward. Returns (clock, count, reset). -/
def dailySleep (dc : ℕ) (dr now : ℚ) : ℚ × ℕ × ℚ :=
  if DAILY_LIMIT ≤ dc then (dr, 0, dr + 86400) else (now, dc, dr)

/-- The burst-limit branch: `ts1` is the cleaned deque, `now` the stale value
    read at entry (used for `wait_time`!), `now1` the actual current clock
    (they differ after a daily-limit sleep). Returns the clock at which the
    request is recorded and the deque just before the append. -/
def burstPhase (ts1 : List ℚ) (now now1 : ℚ) : ℚ × List ℚ :=
  if BURST_RATE_LIMIT ≤ ts1.length then
    -- wait_time = request_times[0] + window - now; sleep(wait_time + 0.1)
    if 0 < ts1.headD 0 + BURST_WINDOW - now then
      (now1 + (ts1.headD 0 + BURST_WINDOW - now) + 1/10,
       dropOld (now1 + (ts1.headD 0 + BURST_WINDOW - now) + 1/10 - BURST_WINDOW) ts1)
    else (now1, ts1)
  else (now1, ts1)

/-- Method `RateLimiter.wait_if_needed` (lines 81-123), entered at clock `now`.
    Returns the new state and the clock at which the call returns (also the
    timestamp appended to the deque). -/
def wait_if_needed (s : RLState) (now : ℚ) : RLState × ℚ :=
  let a := dailyAdjust s now
  let d := dailySleep a.1 a.2 now
  let ts1 := dropOld (now - BURST_WINDOW) s.request_times
  let b := burstPhase ts1 now d.1
  ({ request_times := b.2 ++ [b.1], daily_count := d.2.1 + 1, daily_reset_time := d.2.2 },
   b.1)

/-- A sequence of `wait_if_needed` calls at the given entry clocks; each
    element of the result is (state after the call, its recorded timestamp). -/
def runRL : RLState → List ℚ → List (RLState × ℚ)
  | _, [] => []
  | s, t :: ts =>
    let r := wait_if_needed s t
    r :: runRL r.1 ts

/-- The entry clocks never run backwards: each call starts no earlier than
    the previous call returned. -/
def validCalls : ℚ → RLState → List ℚ → Bool
  | _, _, [] => true
  | c, s, t :: ts =>
    c ≤ t && (let r := wait_if_needed s t; validCalls r.2 r.1 ts)

/-- Strict spacing: each call starts strictly after the previous returned. -/
def strictCalls : ℚ → RLState → List ℚ → Bool
  | _, _, [] => true
  | c, s, t :: ts =>
    c < t && (let r := wait_if_needed s t; strictCalls r.2 r.1 ts)

/-- Recorded timestamps inside the trailing window ending at `t`, boundary
    included (the complement of what the code's cleanup discards). -/
def inWindowCount (times : List ℚ) (t : ℚ) : ℕ :=
  (times.filter fun x => decide (t - BURST_WINDOW ≤ x)).length

/-- Recorded timestamps strictly inside the trailing window ending at `t`. -/
def strictWindowCount (times : List ℚ) (t : ℚ) : ℕ :=
  (times.filter fun x => decide (t - BURST_WINDOW < x)).length

/-! ## codio_downloader_images.py: CodioAPI authentication and request
    (authenticate, _ensure_authenticated, request up to the point the bearer
    header is attached; the HTTP exchange itself is abstracted as succeeding). -/

/-- CodioAPI state (dry_run is False throughout the publish pipeline).
    `access_token` numbers the credential exchanges so a fresh token is
    distinguishable; 0 means "no token yet". -/
structure ApiState where
  access_token : ℕ
  token_expiry : ℚ
  auth_count : ℕ
  rl : RLState
deriving DecidableEq

/-- Method `authenticate` (lines 149-179) at clock `now`: store a fresh token and
    set `token_expiry = now + 3600 - TOKEN_EXPIRY_BUFFER` (the exchange is
    modelled as succeeding instantly). -/
def authenticate (s : ApiState) (now : ℚ) : ApiState :=
  { s with
    access_token := s.auth_count + 1
    token_expiry := now + 3600 - TOKEN_EXPIRY_BUFFER
    auth_count := s.auth_count + 1 }

/-- Method `_ensure_authenticated` (lines 181-185). -/
def ensure_authenticated (s : ApiState) (now : ℚ) : ApiState :=
  if s.token_expiry ≤ now then authenticate s now else s

/-- What one `request` call attaches: issue clock, the bearer token used,
    the stored expiry it was issued under, and how many re-authentications
    the call performed before issuing. -/
structure Issue where
  issued_at : ℚ
  token_used : ℕ
  expiry_at_issue : ℚ
  auths_before_issue : ℕ
deriving DecidableEq

/-- Method `request` (lines 189-210) up to the HTTP send: ensure authentication,
    wait on the rate limiter, attach the bearer token. -/
def apiRequest (s : ApiState) (now : ℚ) : ApiState × ℚ × Issue :=
  let s1 := ensure_authenticated s now
  let r := wait_if_needed s1.rl now
  ({ s1 with rl := r.1 }, r.2,
   { issued_at := r.2
     token_used := s1.access_token
     expiry_at_issue := s1.token_expiry
     auths_before_issue := s1.auth_count - s.auth_count })

/-- Python `CodioAPI.__init__` at clock `now` (dry_run False: authenticates at once). -/
def initApi (now : ℚ) : ApiState :=
  authenticate { access_token := 0, token_expiry := 0, auth_count := 0, rl := initRL now } now

/-- A sequence of `request` calls at the given entry clocks. -/
def runApi : ApiState → List ℚ → List (ApiState × ℚ × Issue)
  | _, [] => []
  | s, t :: ts =>
    let r := apiRequest s t
    r :: runApi r.1 ts

/-- Entry clocks never run backwards across requests. -/
def validReq : ℚ → ApiState → List ℚ → Bool
  | _, _, [] => true
  | c, s, t :: ts =>
    c ≤ t && (let r := apiRequest s t; validReq r.2.1 r.1 ts)

/-! ## tenacity retry semantics (`@retry(stop=stop_after_attempt(n), ...)`) -/

/-- Runner `retryRunAux f n k`: attempt `f k`; on failure retry while `n` further
    attempts remain. Returns the final outcome and the number of attempts
    made. -/
def retryRunAux (f : ℕ → Except String α) : ℕ → ℕ → Except String α × ℕ
  | 0, k => (f k, k + 1)
  | n + 1, k =>
    match f k with
    | Except.ok a => (Except.ok a, k + 1)
    | Except.error _ => retryRunAux f n (k + 1)

/-- tenacity with `stop_after_attempt(stopAfter)`: up to `stopAfter` attempts
    of `f`, numbered from 0. -/
def retryRun (stopAfter : ℕ) (f : ℕ → Except String α) : Except String α × ℕ :=
  retryRunAux f (stopAfter - 1) 0

/-! ## publish_about_me.py: AboutMeDownloader -/

/-- A student as listed by the course API. -/
structure Student where
  name : String
  id : String
  username : String
deriving DecidableEq

/-- One enqueued download task `(section, student, assignment_id, course_id)`. -/
structure Job where
  sectionName : String
  student : Student
  assignment_id : String
  course_id : String
deriving DecidableEq

/-- A manifest entry (the dict built by `download_student_project`).
    `errors = none` models the success dict, which carries no `errors` key. -/
structure StudentMeta where
  sectionName : String
  full_name : String
  display_name_short : String
  username : String
  slug : String
  codio_id : String
  local_path : Option String
  entry_page : Option String
  entry_page_path : Option String
  entry_page_file : Option String
  warnings : List String
  errors : Option (List String)
  download_timestamp : ℚ
deriving DecidableEq

/-- The body of `download_student_project` (lines 262-343). `outcome` is
    the result of the whole clean-directory/download/extract step: either the
    extracted directory tree, or the message of the exception it raised
    (after `CodioAPI`'s internal per-call retries). The `try/except` catches
    every exception and returns an error entry instead of re-raising. -/
def downloadStudentProjectBody (sectionName : String) (student : Student)
    (assignment_id course_id : String) (outcome : Except String DirTree)
    (now : ℚ) : StudentMeta :=
  let username := if student.username = "" then slugify student.name else student.username
  let slug := sanitize_name username
  let display := parse_display_name student.name
  match outcome with
  | Except.error e =>
    { sectionName := sectionName
      full_name := student.name
      display_name_short := display
      username := username
      slug := slug
      codio_id := student.id
      local_path := none
      entry_page := none
      entry_page_path := none
      entry_page_file := none
      warnings := []
      errors := some ["Failed to download " ++ student.name ++ ": " ++ e]
      download_timestamp := now }
  | Except.ok tree =>
    match find_entry_page tree with
    | some pf =>
      { sectionName := sectionName
        full_name := student.name
        display_name_short := display
        username := username
        slug := slug
        codio_id := student.id
        local_path := some ("build/" ++ sectionName ++ "/" ++ slug)
        entry_page := some (if pf.1 = "" then pf.2 else pf.1 ++ "/" ++ pf.2)
        entry_page_path := some pf.1
        entry_page_file := some pf.2
        warnings := []
        errors := none
        download_timestamp := now }
    | none =>
      { sectionName := sectionName
        full_name := student.name
        display_name_short := display
        username := username
        slug := slug
        codio_id := student.id
        local_path := some ("build/" ++ sectionName ++ "/" ++ slug)
        entry_page := none
        entry_page_path := none
        entry_page_file := none
        warnings := ["No index.html or entry page found"]
        errors := none
        download_timestamp := now }

/-- Method `download_student_project` as decorated:
    `@retry(stop=stop_after_attempt(3), wait=wait_exponential(...))` around
    the body. `outcomes k` is the download outcome the k-th attempt would
    see. Returns the tenacity result and the number of attempts made. -/
def download_student_project (sectionName : String) (student : Student)
    (assignment_id course_id : String) (outcomes : ℕ → Except String DirTree)
    (now : ℚ) : Except String StudentMeta × ℕ :=
  retryRun 3 fun k =>
    Except.ok (downloadStudentProjectBody sectionName student assignment_id course_id
      (outcomes k) now)

/-- The execution phase of `download_all_students` (lines 398-419): every
    job is submitted once; a future whose `result()` raises is logged and
    skipped (no manifest entry), otherwise its entry is collected. Jobs run
    concurrently on the worker pool and are collected in completion order;
    since each entry is a function of its own job and outcome alone, the
    manifest is modelled in submission order. -/
def download_all_students (jobs : List Job)
    (outcomes : Job → ℕ → Except String DirTree) (now : ℚ) : List StudentMeta :=
  jobs.filterMap fun j =>
    match (download_student_project j.sectionName j.student j.assignment_id j.course_id
        (outcomes j) now).1 with
    | Except.ok m => some m
    | Except.error _ => none

/-! # Theorems -/

/-! ## C9: display-name derivation -/

/-- Claim C9: the short display-name derivation maps "Jonathan Smith" to
    "Julian S", "Michael Holland" to "Micky H" and the single-word "Shiyang"
    to "April", and the full-name override table takes precedence over the
    generic preferred-first-name-plus-last-initial rule. -/
theorem C9_display_names :
    parse_display_name "Jonathan Smith" = "Julian S" ∧
    parse_display_name "Michael Holland" = "Micky H" ∧
    parse_display_name "Shiyang" = "April" ∧
    ∀ name v, dictGet SPECIAL_NAME_CASES (pyStrip name) = some v →
      parse_display_name name = v := by
  refine ⟨by decide, by decide, by decide, ?_⟩
  intro name v h
  have hcond : ¬(name = "" ∨ pyStrip name = "") := by
    rintro (rfl | hs)
    · have he : dictGet SPECIAL_NAME_CASES (pyStrip "") = none := by decide
      rw [he] at h
      exact Option.noConfusion h
    · rw [hs] at h
      have he : dictGet SPECIAL_NAME_CASES "" = none := by decide
      rw [he] at h
      exact Option.noConfusion h
  unfold parse_display_name
  rw [if_neg hcond, h]

/-! ## C10: sanitize_name safety -/

theorem mem_sanitize_ok (name : String) :
    ∀ c ∈ (sanitize_name name).data, okChar c = true := by
  have key : ∀ c ∈ ((name.data.map fun c => if c = ' ' then '_' else c).filter
      fun c => !(WINDOWS_UNSAFE.contains c)).filter (fun c => decide (c.toNat < 128)),
      okChar c = true := by
    intro c hc
    obtain ⟨hc2, hascii⟩ := List.mem_filter.mp hc
    obtain ⟨hc1, hgood⟩ := List.mem_filter.mp hc2
    obtain ⟨c0, _, rfl⟩ := List.mem_map.mp hc1
    have hsp : ¬((if c0 = ' ' then '_' else c0) = ' ') := by
      by_cases h0 : c0 = ' ' <;> simp [h0]
    simp only [okChar, Bool.and_eq_true, Bool.not_eq_true', decide_eq_false_iff_not,
      decide_eq_true_eq]
    rw [Bool.not_eq_true'] at hgood
    exact ⟨⟨hsp, hgood⟩, of_decide_eq_true hascii⟩
  unfold sanitize_name
  dsimp only
  split
  · intro c hc
    fin_cases hc <;> decide
  · exact key

/-- Claim C10 (implicit): `sanitize_name` always returns a non-empty string
    containing no space, none of the stripped unsafe characters and no
    non-ASCII character (falling back to "unknown"), and a job's directory
    slug is exactly `sanitize_name` of the job's username (or the slugified
    display name), hence always such a name. -/
theorem C10_sanitize_safe :
    (∀ name : String, sanitize_name name ≠ "" ∧
      (sanitize_name name).data.all okChar = true) ∧
    ∀ (sec : String) (st : Student) (aid cid : String)
      (outcome : Except String DirTree) (now : ℚ),
      (downloadStudentProjectBody sec st aid cid outcome now).slug =
        sanitize_name (if st.username = "" then slugify st.name else st.username) := by
  constructor
  · intro name
    refine ⟨?_, List.all_eq_true.mpr (mem_sanitize_ok name)⟩
    unfold sanitize_name
    dsimp only
    split
    · decide
    · rename_i hne
      intro habs
      apply hne
      rw [List.isEmpty_iff]
      exact congrArg String.data habs
  · intro sec st aid cid outcome now
    cases outcome with
    | error e => rfl
    | ok tree =>
      cases h : find_entry_page tree <;> simp [downloadStudentProjectBody, h]

/-! ## C3: the job-level retry layer -/

/-- Claim C3 (code_bug evaluation): for a job whose download raises on the
    first attempt and would succeed on every later one, the decorated
    `download_student_project` performs exactly ONE attempt and returns the
    failed manifest entry: the `except Exception` inside the body converts
    the failure into a returned dict, so the
    `@retry(stop=stop_after_attempt(3))` wrapper never observes an exception
    and never re-attempts. -/
theorem C3_job_retry_never_fires :
    (fun k => if k = 0 then (Except.error "connection reset" : Except String DirTree)
              else Except.ok (DirTree.node ["index.html"] [])) 1
        = Except.ok (DirTree.node ["index.html"] []) ∧
    download_student_project "7A" ⟨"Stu Dent", "s1", ""⟩ "a1" "c1"
        (fun k => if k = 0 then Except.error "connection reset"
                  else Except.ok (DirTree.node ["index.html"] [])) 0
      = (Except.ok
          { sectionName := "7A"
            full_name := "Stu Dent"
            display_name_short := "Stu D"
            username := "stu-dent"
            slug := "stu-dent"
            codio_id := "s1"
            local_path := none
            entry_page := none
            entry_page_path := none
            entry_page_file := none
            warnings := []
            errors := some ["Failed to download Stu Dent: connection reset"]
            download_timestamp := 0 }, 1) :=
  ⟨rfl, rfl⟩

/-! ## C5: token freshness -/

set_option maxRecDepth 8000 in
/-- Claim C5 is false as stated: the freshness check happens before the
    rate-limiter wait, so with the token authenticated at clock 0
    (expiry 3300) and 51 requests entered at clock 3295, the 51st request
    sleeps through the burst window and attaches the stored bearer token at
    clock 3305.1, at/after its stored expiry. -/
theorem C5_counterexample :
    validReq 0 (initApi 0) (List.replicate 51 3295) = true ∧
    ((runApi (initApi 0) (List.replicate 51 3295)).getLastD
        (initApi 0, 0, ⟨0, 0, 0, 0⟩)).2.2.expiry_at_issue = 3300 ∧
    ((runApi (initApi 0) (List.replicate 51 3295)).getLastD
        (initApi 0, 0, ⟨0, 0, 0, 0⟩)).2.2.issued_at = 3305 + 1/10 ∧
    ((runApi (initApi 0) (List.replicate 51 3295)).getLastD
        (initApi 0, 0, ⟨0, 0, 0, 0⟩)).2.2.expiry_at_issue ≤
      ((runApi (initApi 0) (List.replicate 51 3295)).getLastD
        (initApi 0, 0, ⟨0, 0, 0, 0⟩)).2.2.issued_at := by
  refine ⟨by with_unfolding_all rfl, by with_unfolding_all rfl, by with_unfolding_all rfl, ?_⟩
  rw [show ((runApi (initApi 0) (List.replicate 51 3295)).getLastD
        (initApi 0, 0, ⟨0, 0, 0, 0⟩)).2.2.expiry_at_issue = 3300 by with_unfolding_all rfl,
      show ((runApi (initApi 0) (List.replicate 51 3295)).getLastD
        (initApi 0, 0, ⟨0, 0, 0, 0⟩)).2.2.issued_at = 3305 + 1/10 by with_unfolding_all rfl]
  norm_num

/-- Claim C5 amended: before every request the freshness check runs, and a
    token observed expired triggers exactly one re-authentication; at the
    moment `_ensure_authenticated` returns, the clock is strictly before the
    stored expiry (set at authentication to now + 3600 − 300), and the
    request attaches exactly the post-check token under that expiry — but
    the attach itself happens only after the rate-limiter wait. -/
theorem C5_token_check :
    ∀ (s : ApiState) (now : ℚ),
      now < (ensure_authenticated s now).token_expiry ∧
      (ensure_authenticated s now).auth_count =
        s.auth_count + (if s.token_expiry ≤ now then 1 else 0) ∧
      (apiRequest s now).2.2.token_used = (ensure_authenticated s now).access_token ∧
      (apiRequest s now).2.2.expiry_at_issue = (ensure_authenticated s now).token_expiry ∧
      (apiRequest s now).2.2.auths_before_issue =
        (if s.token_expiry ≤ now then 1 else 0) := by
  intro s now
  by_cases h : s.token_expiry ≤ now
  · refine ⟨?_, ?_, rfl, rfl, ?_⟩
    · simp only [ensure_authenticated, if_pos h, authenticate, TOKEN_EXPIRY_BUFFER]
      linarith
    · simp [ensure_authenticated, if_pos h, authenticate]
    · simp [apiRequest, ensure_authenticated, if_pos h, authenticate]
  · refine ⟨?_, ?_, rfl, rfl, ?_⟩
    · simp only [ensure_authenticated, if_neg h]
      exact lt_of_not_le h
    · simp [ensure_authenticated, if_neg h]
    · simp [apiRequest, ensure_authenticated, if_neg h]

/-! ## C1 / C6 / C7: archive extraction -/

theorem extract_fold_eq (dest : PurePath) (globs : List String) :
    ∀ (members : List TarMember) (acc : List PurePath × List String),
      List.foldl (extractStep dest globs) acc members =
        (acc.1 ++ members.filterMap (keptMember dest globs),
         acc.2 ++ members.filterMap (warnOfMember dest globs))
  | [], acc => by simp
  | m :: ms, acc => by
    rw [List.foldl_cons, extract_fold_eq dest globs ms]
    unfold extractStep keptMember warnOfMember
    by_cases h1 : isRelTo (memberDest dest m) (resolveP dest) = true
    · by_cases h2 : shouldExclude m.name globs = true
      · simp [h1, h2]
      · by_cases h3 : m.corrupt = true
        · simp [h1, h2, h3]
        · simp [h1, h2, h3]
    · rw [Bool.not_eq_true] at h1
      simp [h1]

theorem extract_tar_eq (dest : PurePath) (globs : List String) (members : List TarMember) :
    extract_tar_inclusive dest globs members =
      (members.filterMap (keptMember dest globs),
       members.filterMap (warnOfMember dest globs)) := by
  rw [extract_tar_inclusive, extract_fold_eq]
  rfl

theorem keptMember_eq_some (dest : PurePath) (globs : List String) (m : TarMember)
    (p : PurePath) :
    keptMember dest globs m = some p ↔
      p = memberDest dest m ∧ isRelTo (memberDest dest m) (resolveP dest) = true ∧
      shouldExclude m.name globs = false ∧ m.corrupt = false := by
  unfold keptMember
  split
  · rename_i hcond
    simp only [Bool.and_eq_true, Bool.not_eq_true'] at hcond
    obtain ⟨⟨ha, hb⟩, hc⟩ := hcond
    simp [ha, hb, hc, eq_comm]
  · rename_i hcond
    constructor
    · intro habs
      exact Option.noConfusion habs
    · rintro ⟨rfl, h1, h2, h3⟩
      exact absurd (by simp [h1, h2, h3]) hcond

/-- Claim C1: a member whose resolved destination escapes the destination
    directory is skipped with a warning, writes nothing (every written path
    is contained in the destination), and the remaining members are still
    processed. -/
theorem C1_traversal_contained :
    ∀ (dest : PurePath) (globs : List String) (members : List TarMember),
      (∀ p ∈ (extract_tar_inclusive dest globs members).1,
          isRelTo p (resolveP dest) = true) ∧
      (∀ m ∈ members, isRelTo (memberDest dest m) (resolveP dest) = false →
          ("Skipping potentially unsafe path: " ++ m.name)
              ∈ (extract_tar_inclusive dest globs members).2 ∧
          memberDest dest m ∉ (extract_tar_inclusive dest globs members).1) ∧
      (∀ m ∈ members, isRelTo (memberDest dest m) (resolveP dest) = true →
          shouldExclude m.name globs = false → m.corrupt = false →
          memberDest dest m ∈ (extract_tar_inclusive dest globs members).1) := by
  intro dest globs members
  rw [extract_tar_eq]
  have hout : ∀ p ∈ members.filterMap (keptMember dest globs),
      isRelTo p (resolveP dest) = true := by
    intro p hp
    obtain ⟨m, _, hk⟩ := List.mem_filterMap.mp hp
    obtain ⟨rfl, h1, -, -⟩ := (keptMember_eq_some dest globs m p).mp hk
    exact h1
  refine ⟨hout, ?_, ?_⟩
  · intro m hm hbad
    constructor
    · refine List.mem_filterMap.mpr ⟨m, hm, ?_⟩
      unfold warnOfMember
      rw [hbad]
      rfl
    · intro habs
      rw [hout (memberDest dest m) habs] at hbad
      exact Bool.noConfusion hbad
  · intro m hm h1 h2 h3
    exact List.mem_filterMap.mpr
      ⟨m, hm, (keptMember_eq_some dest globs m (memberDest dest m)).mpr ⟨rfl, h1, h2, h3⟩⟩

/-- Claim C7: a member whose extraction fails is logged and skipped without
    aborting the batch; every other contained, non-excluded, non-failing
    member is still written, and the written files are exactly those of the
    members that pass both the containment and exclusion checks and extract
    cleanly. -/
theorem C7_corrupt_member_isolated :
    ∀ (dest : PurePath) (globs : List String) (members : List TarMember),
      (∀ m ∈ members, isRelTo (memberDest dest m) (resolveP dest) = true →
          shouldExclude m.name globs = false → m.corrupt = true →
          ("Failed to extract " ++ m.name) ∈ (extract_tar_inclusive dest globs members).2) ∧
      (∀ m ∈ members, isRelTo (memberDest dest m) (resolveP dest) = true →
          shouldExclude m.name globs = false → m.corrupt = false →
          memberDest dest m ∈ (extract_tar_inclusive dest globs members).1) ∧
      (extract_tar_inclusive dest globs members).1 =
        members.filterMap (keptMember dest globs) := by
  intro dest globs members
  rw [extract_tar_eq]
  refine ⟨?_, ?_, rfl⟩
  · intro m hm h1 h2 h3
    refine List.mem_filterMap.mpr ⟨m, hm, ?_⟩
    unfold warnOfMember
    rw [h1, h2, h3]
    rfl
  · intro m hm h1 h2 h3
    exact List.mem_filterMap.mpr
      ⟨m, hm, (keptMember_eq_some dest globs m (memberDest dest m)).mpr ⟨rfl, h1, h2, h3⟩⟩

/-- Claim C6: extraction into an existing destination first removes the
    whole prior directory, so the surviving paths under the destination are
    exactly the freshly extracted ones: a prior file under the destination
    that the archive does not re-create is gone. -/
theorem C6_clean_replace (fs : FS) (dest : PurePath) (members : List TarMember)
    (suffix : String) (h : suffix = ".zst" ∨ suffix = ".tar") :
    extract_assignment suffix members dest fs =
      Except.ok (removeTree dest fs ++ (extract_tar_inclusive dest DEFAULT_EXCLUDES members).1,
        (extract_tar_inclusive dest DEFAULT_EXCLUDES members).2) ∧
    (∀ p ∈ removeTree dest fs ++ (extract_tar_inclusive dest DEFAULT_EXCLUDES members).1,
        isRelTo p dest = false ∨
        p ∈ (extract_tar_inclusive dest DEFAULT_EXCLUDES members).1) ∧
    ∀ p ∈ fs, isRelTo p dest = true →
      p ∉ (extract_tar_inclusive dest DEFAULT_EXCLUDES members).1 →
      p ∉ removeTree dest fs ++ (extract_tar_inclusive dest DEFAULT_EXCLUDES members).1 := by
  refine ⟨?_, ?_, ?_⟩
  · unfold extract_assignment
    rw [if_pos h]
  · intro p hp
    rcases List.mem_append.mp hp with hp | hp
    · left
      have := (List.mem_filter.mp hp).2
      rwa [Bool.not_eq_true'] at this
    · exact Or.inr hp
  · intro p _ hrel hnot habs
    rcases List.mem_append.mp habs with hin | hin
    · have := (List.mem_filter.mp hin).2
      rw [Bool.not_eq_true'] at this
      rw [hrel] at this
      exact Bool.noConfusion this
    · exact hnot hin

/-- C6 at a concrete input: extracting `new.html` from a tar into
    `/tmp/out`, which already holds `old.txt`, leaves no trace of the prior
    contents. -/
theorem C6_witness :
    extract_assignment ".tar" [⟨"new.html", false⟩] ⟨true, ["tmp", "out"]⟩
        [⟨true, ["tmp", "out", "old.txt"]⟩] =
      Except.ok (removeTree ⟨true, ["tmp", "out"]⟩ [⟨true, ["tmp", "out", "old.txt"]⟩] ++
          (extract_tar_inclusive ⟨true, ["tmp", "out"]⟩ DEFAULT_EXCLUDES
            [⟨"new.html", false⟩]).1,
        (extract_tar_inclusive ⟨true, ["tmp", "out"]⟩ DEFAULT_EXCLUDES
          [⟨"new.html", false⟩]).2) ∧
    (∀ p ∈ removeTree ⟨true, ["tmp", "out"]⟩ [⟨true, ["tmp", "out", "old.txt"]⟩] ++
          (extract_tar_inclusive ⟨true, ["tmp", "out"]⟩ DEFAULT_EXCLUDES
            [⟨"new.html", false⟩]).1,
        isRelTo p ⟨true, ["tmp", "out"]⟩ = false ∨
        p ∈ (extract_tar_inclusive ⟨true, ["tmp", "out"]⟩ DEFAULT_EXCLUDES
          [⟨"new.html", false⟩]).1) ∧
    ∀ p ∈ ([⟨true, ["tmp", "out", "old.txt"]⟩] : FS),
      isRelTo p ⟨true, ["tmp", "out"]⟩ = true →
      p ∉ (extract_tar_inclusive ⟨true, ["tmp", "out"]⟩ DEFAULT_EXCLUDES
          [⟨"new.html", false⟩]).1 →
      p ∉ removeTree ⟨true, ["tmp", "out"]⟩ [⟨true, ["tmp", "out", "old.txt"]⟩] ++
          (extract_tar_inclusive ⟨true, ["tmp", "out"]⟩ DEFAULT_EXCLUDES
            [⟨"new.html", false⟩]).1 :=
  C6_clean_replace [⟨true, ["tmp", "out", "old.txt"]⟩] ⟨true, ["tmp", "out"]⟩
    [⟨"new.html", false⟩] ".tar" (Or.inr rfl)

/-! ## C2: one manifest entry per job -/

theorem dsp_ok (sec : String) (st : Student) (aid cid : String)
    (oc : ℕ → Except String DirTree) (now : ℚ) :
    download_student_project sec st aid cid oc now =
      (Except.ok (downloadStudentProjectBody sec st aid cid (oc 0) now), 1) := rfl

theorem filterMap_some_eq_map (f : α → β) :
    ∀ l : List α, l.filterMap (fun a => some (f a)) = l.map f := by
  intro l
  induction l with
  | nil => rfl
  | cons a l ih => simp [List.filterMap_cons, ih]

theorem download_all_eq (jobs : List Job)
    (outcomes : Job → ℕ → Except String DirTree) (now : ℚ) :
    download_all_students jobs outcomes now =
      jobs.map fun j => downloadStudentProjectBody j.sectionName j.student
        j.assignment_id j.course_id (outcomes j 0) now := by
  unfold download_all_students
  have hfun : (fun j : Job =>
      match (download_student_project j.sectionName j.student j.assignment_id
          j.course_id (outcomes j) now).1 with
      | Except.ok m => some m
      | Except.error _ => none) =
      fun j : Job => some (downloadStudentProjectBody j.sectionName j.student
        j.assignment_id j.course_id (outcomes j 0) now) := by
    funext j
    rw [dsp_ok]
  rw [hfun, filterMap_some_eq_map]

/-- Claim C2: every enqueued job yields exactly one manifest entry, a pure
    function of that job's own data and download outcome (hence independent
    of other jobs); a job whose download step ultimately raises yields an
    entry with a non-empty error list and no local path, while a job whose
    download succeeds appears with a populated local path and no errors. -/
theorem C2_manifest_one_entry_per_job :
    ∀ (jobs : List Job) (outcomes : Job → ℕ → Except String DirTree) (now : ℚ),
      download_all_students jobs outcomes now =
        (jobs.map fun j => downloadStudentProjectBody j.sectionName j.student
          j.assignment_id j.course_id (outcomes j 0) now) ∧
      (download_all_students jobs outcomes now).length = jobs.length ∧
      (∀ (outcomes2 : Job → ℕ → Except String DirTree) (j : Job),
          outcomes j = outcomes2 j →
          downloadStudentProjectBody j.sectionName j.student j.assignment_id
              j.course_id (outcomes j 0) now =
            downloadStudentProjectBody j.sectionName j.student j.assignment_id
              j.course_id (outcomes2 j 0) now) ∧
      (∀ (j : Job) (e : String), outcomes j 0 = Except.error e →
          (downloadStudentProjectBody j.sectionName j.student j.assignment_id
              j.course_id (outcomes j 0) now).errors =
            some ["Failed to download " ++ j.student.name ++ ": " ++ e] ∧
          (downloadStudentProjectBody j.sectionName j.student j.assignment_id
              j.course_id (outcomes j 0) now).local_path = none) ∧
      (∀ (j : Job) (tree : DirTree), outcomes j 0 = Except.ok tree →
          (downloadStudentProjectBody j.sectionName j.student j.assignment_id
              j.course_id (outcomes j 0) now).local_path =
            some ("build/" ++ j.sectionName ++ "/" ++
              sanitize_name (if j.student.username = "" then slugify j.student.name
                             else j.student.username)) ∧
          (downloadStudentProjectBody j.sectionName j.student j.assignment_id
              j.course_id (outcomes j 0) now).errors = none) := by
  intro jobs outcomes now
  refine ⟨download_all_eq jobs outcomes now, ?_, ?_, ?_, ?_⟩
  · rw [download_all_eq jobs outcomes now, List.length_map]
  · intro outcomes2 j h
    rw [h]
  · intro j e h
    rw [h]
    exact ⟨rfl, rfl⟩
  · intro j tree h
    rw [h]
    cases h2 : find_entry_page tree <;> simp [downloadStudentProjectBody, h2]

/-! ## C8: entry-page search order -/

/-- Claim C8 is false as stated: the search is depth-first, not
    level-by-level. In a project where subdirectory `a` holds only
    `a/x/index.html` (two levels down) and subdirectory `b` holds
    `b/index.html` (one level down), the code returns the two-level match
    under `a`, while the claimed order (all one-level subdirectories before
    any two-level one) would return `b`'s page. -/
theorem C8_counterexample :
    find_entry_page (DirTree.node []
        [("a", DirTree.node [] [("x", DirTree.node ["index.html"] [])]),
         ("b", DirTree.node ["index.html"] [])]) = some ("a/x", "index.html") ∧
    specEntrySearch (DirTree.node []
        [("a", DirTree.node [] [("x", DirTree.node ["index.html"] [])]),
         ("b", DirTree.node ["index.html"] [])]) = some ("b", "index.html") ∧
    find_entry_page (DirTree.node []
        [("a", DirTree.node [] [("x", DirTree.node ["index.html"] [])]),
         ("b", DirTree.node ["index.html"] [])]) ≠
      specEntrySearch (DirTree.node []
        [("a", DirTree.node [] [("x", DirTree.node ["index.html"] [])]),
         ("b", DirTree.node ["index.html"] [])]) := by
  refine ⟨rfl, rfl, ?_⟩
  intro h
  rw [show find_entry_page (DirTree.node []
        [("a", DirTree.node [] [("x", DirTree.node ["index.html"] [])]),
         ("b", DirTree.node ["index.html"] [])]) = some ("a/x", "index.html") from rfl,
      show specEntrySearch (DirTree.node []
        [("a", DirTree.node [] [("x", DirTree.node ["index.html"] [])]),
         ("b", DirTree.node ["index.html"] [])]) = some ("b", "index.html") from rfl] at h
  simp at h

theorem firstPresent_append (l1 l2 : List (String × String × Bool)) :
    firstPresent (l1 ++ l2) =
      match firstPresent l1 with
      | some r => some r
      | none => firstPresent l2 := by
  unfold firstPresent
  rw [List.find?_append]
  cases List.find? (fun x => x.2.2) l1 <;> simp

theorem firstPresent_mapPats (rel : String) (files : List String) :
    ∀ pats : List String,
      firstPresent (pats.map fun p => (rel, p, files.contains p)) =
        (firstFileHit files pats).map fun p => (rel, p)
  | [] => rfl
  | p :: pats => by
    by_cases hp : files.contains p = true
    · unfold firstPresent firstFileHit
      rw [List.map_cons, List.find?_cons_of_pos _ (by simpa using hp),
        List.find?_cons_of_pos _ hp]
      rfl
    · unfold firstPresent firstFileHit
      rw [List.map_cons, List.find?_cons_of_neg _ (by simpa using hp),
        List.find?_cons_of_neg _ (by simpa using hp)]
      exact firstPresent_mapPats rel files pats

theorem searchSub2_cons (parent n : String) (t : DirTree) (rest : List (String × DirTree)) :
    searchSub2 parent ((n, t) :: rest) =
      if hiddenName n = true then searchSub2 parent rest
      else
        match firstFileHit t.files patternsMain with
        | some p => some (parent ++ "/" ++ n, p)
        | none => searchSub2 parent rest := rfl

theorem searchSub1_cons (n : String) (t : DirTree) (rest : List (String × DirTree)) :
    searchSub1 ((n, t) :: rest) =
      if hiddenName n = true then searchSub1 rest
      else
        match firstFileHit t.files patternsMain with
        | some p => some (n, p)
        | none =>
          match searchSub2 n t.subdirs with
          | some r => some r
          | none => searchSub1 rest := rfl

theorem searchSub2_eq (parent : String) :
    ∀ subs : List (String × DirTree),
      searchSub2 parent subs =
        firstPresent ((subs.filter fun nt => !(hiddenName nt.fst)).flatMap fun nt2 =>
          patternsMain.map fun p => (parent ++ "/" ++ nt2.fst, p, nt2.snd.files.contains p))
  | [] => rfl
  | (n, t) :: rest => by
    by_cases hn : hiddenName n = true
    · rw [searchSub2_cons, if_pos hn, searchSub2_eq parent rest]
      simp [List.filter_cons, hn]
    · rw [searchSub2_cons, if_neg hn]
      rw [show (((n, t) :: rest).filter fun nt => !(hiddenName nt.fst)) =
          (n, t) :: (rest.filter fun nt => !(hiddenName nt.fst)) by
        simp [List.filter_cons, hn]]
      rw [List.flatMap_cons, firstPresent_append, firstPresent_mapPats]
      cases hf : firstFileHit t.files patternsMain with
      | none => simp [searchSub2_eq parent rest]
      | some p => rfl

theorem searchSub1_eq :
    ∀ subs : List (String × DirTree),
      searchSub1 subs =
        firstPresent ((subs.filter fun nt => !(hiddenName nt.fst)).flatMap fun nt =>
          (patternsMain.map fun p => (nt.fst, p, nt.snd.files.contains p))
            ++ ((nt.snd.subdirs.filter fun nt2 => !(hiddenName nt2.fst)).flatMap fun nt2 =>
                  patternsMain.map fun p =>
                    (nt.fst ++ "/" ++ nt2.fst, p, nt2.snd.files.contains p)))
  | [] => rfl
  | (n, t) :: rest => by
    by_cases hn : hiddenName n = true
    · rw [searchSub1_cons, if_pos hn, searchSub1_eq rest]
      simp [List.filter_cons, hn]
    · rw [searchSub1_cons, if_neg hn]
      rw [show (((n, t) :: rest).filter fun nt => !(hiddenName nt.fst)) =
          (n, t) :: (rest.filter fun nt => !(hiddenName nt.fst)) by
        simp [List.filter_cons, hn]]
      rw [List.flatMap_cons, List.append_assoc, firstPresent_append,
        firstPresent_append, firstPresent_mapPats]
      cases hf : firstFileHit t.files patternsMain with
      | some p => rfl
      | none =>
        rw [searchSub2_eq n t.subdirs]
        cases h2 : firstPresent ((t.subdirs.filter fun nt2 => !(hiddenName nt2.fst)).flatMap
            fun nt2 => patternsMain.map fun p =>
              (n ++ "/" ++ nt2.fst, p, nt2.snd.files.contains p)) with
        | some r => rfl
        | none => simp [searchSub1_eq rest]

theorem find_entry_page_probes (tree : DirTree) :
    find_entry_page tree = firstPresent (dfsProbes tree) := by
  unfold find_entry_page dfsProbes
  rw [firstPresent_append, firstPresent_append, firstPresent_mapPats,
    firstPresent_mapPats]
  cases h0 : firstFileHit tree.files patternsMain with
  | some p => rfl
  | none =>
    rw [searchSub1_eq tree.subdirs]
    cases h1 : firstPresent ((tree.subdirs.filter fun nt => !(hiddenName nt.fst)).flatMap
        fun nt => (patternsMain.map fun p => (nt.fst, p, nt.snd.files.contains p))
          ++ ((nt.snd.subdirs.filter fun nt2 => !(hiddenName nt2.fst)).flatMap fun nt2 =>
                patternsMain.map fun p =>
                  (nt.fst ++ "/" ++ nt2.fst, p, nt2.snd.files.contains p))) with
    | some r => rfl
    | none => cases firstFileHit tree.files fallbackPatterns <;> rfl

/-- Claim C8 amended: the search probes the ordered candidate list at the
    root, then DEPTH-FIRST through each first-level subdirectory in turn
    (the subdirectory's own candidates, then its immediate subdirectories'),
    then the fallback names at the root only, returning the first hit; a
    project whose only entry page is `subdir/index.html` yields
    `("subdir", "index.html")`; a project with no entry page yields no
    match, and its job records a warning, not an error. -/
theorem C8_entry_search :
    (∀ tree : DirTree, find_entry_page tree = firstPresent (dfsProbes tree)) ∧
    find_entry_page (DirTree.node []
        [("subdir", DirTree.node ["index.html"] [])]) = some ("subdir", "index.html") ∧
    find_entry_page (DirTree.node ["readme.txt"]
        [("d", DirTree.node ["a.txt"] [])]) = none ∧
    ∀ (sec : String) (st : Student) (aid cid : String) (now : ℚ) (tree : DirTree),
      find_entry_page tree = none →
      (downloadStudentProjectBody sec st aid cid (Except.ok tree) now).warnings =
          ["No index.html or entry page found"] ∧
      (downloadStudentProjectBody sec st aid cid (Except.ok tree) now).errors = none := by
  refine ⟨find_entry_page_probes, rfl, rfl, ?_⟩
  intro sec st aid cid now tree h
  simp [downloadStudentProjectBody, h]

/-! ## C4: the burst-window invariant -/

theorem dropOld_suffix (c : ℚ) : ∀ l : List ℚ, List.IsSuffix (dropOld c l) l
  | [] => List.suffix_refl []
  | t :: ts => by
    unfold dropOld
    split
    · exact (dropOld_suffix c ts).trans (List.suffix_cons t ts)
    · exact List.suffix_refl _

theorem dropOld_sublist (c : ℚ) (l : List ℚ) : List.Sublist (dropOld c l) l :=
  (dropOld_suffix c l).sublist

theorem dropOld_sorted (c : ℚ) (l : List ℚ) (h : l.Sorted (· ≤ ·)) :
    (dropOld c l).Sorted (· ≤ ·) := h.sublist (dropOld_sublist c l)

theorem dropOld_ge (c : ℚ) : ∀ l : List ℚ, l.Sorted (· ≤ ·) → ∀ x ∈ dropOld c l, c ≤ x
  | [], _, x, hx => by simp [dropOld] at hx
  | t :: ts, h, x, hx => by
    unfold dropOld at hx
    split at hx
    · exact dropOld_ge c ts h.of_cons x hx
    · rename_i hnt
      rcases List.mem_cons.mp hx with rfl | hx
      · exact le_of_not_lt hnt
      · exact le_trans (le_of_not_lt hnt) (List.rel_of_sorted_cons h x hx)

theorem dropOld_cons (c t : ℚ) (ts : List ℚ) :
    dropOld c (t :: ts) = if t < c then dropOld c ts else t :: ts := rfl

theorem dropOld_cons_of_lt {t c : ℚ} (ts : List ℚ) (h : t < c) :
    dropOld c (t :: ts) = dropOld c ts := by
  rw [dropOld_cons, if_pos h]

theorem sublist_length_le_filter (l1 l2 : List ℚ) (p : ℚ → Bool)
    (hsub : List.Sublist l1 l2) (hall : ∀ x ∈ l1, p x = true) :
    l1.length ≤ (l2.filter p).length := by
  have h1 : l1.filter p = l1 := List.filter_eq_self.mpr hall
  have h2 : List.Sublist (l1.filter p) (l2.filter p) := List.Sublist.filter p hsub
  rw [h1] at h2
  exact h2.length_le

theorem strictWindowCount_le_length (l : List ℚ) (t : ℚ) :
    strictWindowCount l t ≤ l.length := List.length_filter_le _ _

theorem strictWindowCount_append_one (l : List ℚ) (a t : ℚ)
    (h : t - BURST_WINDOW < a) :
    strictWindowCount (l ++ [a]) t = strictWindowCount l t + 1 := by
  unfold strictWindowCount
  rw [List.filter_append, List.length_append]
  simp [h]

theorem strictWindowCount_cons_out (l : List ℚ) (a t : ℚ)
    (h : ¬ t - BURST_WINDOW < a) :
    strictWindowCount (a :: l) t = strictWindowCount l t := by
  unfold strictWindowCount
  rw [List.filter_cons]
  simp [h]

theorem dailyAdjust_cases (s : RLState) (now : ℚ) :
    dailyAdjust s now = (0, now + 86400) ∨
    (dailyAdjust s now = (s.daily_count, s.daily_reset_time) ∧ now < s.daily_reset_time) := by
  unfold dailyAdjust
  split_ifs with h
  · exact Or.inl rfl
  · exact Or.inr ⟨rfl, lt_of_not_le h⟩

theorem dailySleep_clock (dc : ℕ) (dr now : ℚ) :
    (dailySleep dc dr now).1 = now ∨ (dailySleep dc dr now).1 = dr := by
  unfold dailySleep
  split_ifs
  · exact Or.inr rfl
  · exact Or.inl rfl

theorem daily_clock_ge (s : RLState) (now : ℚ) :
    now ≤ (dailySleep (dailyAdjust s now).1 (dailyAdjust s now).2 now).1 := by
  rcases dailyAdjust_cases s now with h | ⟨h, hlt⟩
  · rw [h]
    show now ≤ (dailySleep 0 (now + 86400) now).1
    rcases dailySleep_clock 0 (now + 86400) now with h2 | h2 <;> rw [h2] <;> linarith
  · rw [h]
    show now ≤ (dailySleep s.daily_count s.daily_reset_time now).1
    rcases dailySleep_clock s.daily_count s.daily_reset_time now with h2 | h2 <;>
      rw [h2] <;> linarith

theorem burstPhase_clock_ge (ts1 : List ℚ) (now now1 : ℚ) :
    now1 ≤ (burstPhase ts1 now now1).1 := by
  unfold burstPhase
  split_ifs with h1 h2
  · dsimp only
    linarith
  · exact le_refl now1
  · exact le_refl now1

theorem burstPhase_count (ts1 : List ℚ) (now now1 : ℚ)
    (hsort : ts1.Sorted (· ≤ ·))
    (hlen : ts1.length ≤ BURST_RATE_LIMIT)
    (hnn : now ≤ now1) :
    strictWindowCount (burstPhase ts1 now now1).2 (burstPhase ts1 now now1).1 <
      BURST_RATE_LIMIT ∧
    List.Sublist (burstPhase ts1 now now1).2 ts1 := by
  unfold burstPhase
  by_cases hb : BURST_RATE_LIMIT ≤ ts1.length
  · rw [if_pos hb]
    obtain ⟨h0, rest, rfl⟩ : ∃ h0 rest, ts1 = h0 :: rest := by
      cases ts1 with
      | nil =>
        rw [List.length_nil] at hb
        exact absurd hb (by norm_num [BURST_RATE_LIMIT])
      | cons a b => exact ⟨a, b, rfl⟩
    have hrest : rest.length + 1 ≤ BURST_RATE_LIMIT := by
      rw [List.length_cons] at hlen
      exact hlen
    by_cases hw : 0 < (h0 :: rest).headD 0 + BURST_WINDOW - now
    · rw [if_pos hw]
      dsimp only
      have hdrop : h0 < now1 + ((h0 :: rest).headD 0 + BURST_WINDOW - now) + 1/10 -
          BURST_WINDOW := by
        rw [List.headD_cons]
        linarith
      rw [dropOld_cons_of_lt rest hdrop]
      refine ⟨?_, (dropOld_sublist _ rest).trans (List.sublist_cons_self h0 rest)⟩
      calc strictWindowCount (dropOld (now1 + ((h0 :: rest).headD 0 + BURST_WINDOW - now)
              + 1/10 - BURST_WINDOW) rest) (now1 + ((h0 :: rest).headD 0 + BURST_WINDOW
              - now) + 1/10) ≤
          (dropOld (now1 + ((h0 :: rest).headD 0 + BURST_WINDOW - now) + 1/10 -
            BURST_WINDOW) rest).length := strictWindowCount_le_length _ _
        _ ≤ rest.length := (dropOld_sublist _ rest).length_le
        _ < BURST_RATE_LIMIT := by omega
    · rw [if_neg hw]
      dsimp only
      have hh0 : h0 ≤ now - BURST_WINDOW := by
        rw [List.headD_cons] at hw
        linarith
      rw [strictWindowCount_cons_out rest h0 now1 (by linarith)]
      refine ⟨?_, List.Sublist.refl _⟩
      calc strictWindowCount rest now1 ≤ rest.length := strictWindowCount_le_length _ _
        _ < BURST_RATE_LIMIT := by omega
  · rw [if_neg hb]
    dsimp only
    refine ⟨?_, List.Sublist.refl _⟩
    calc strictWindowCount ts1 now1 ≤ ts1.length := strictWindowCount_le_length _ _
      _ < BURST_RATE_LIMIT := lt_of_not_le hb

theorem wait_if_needed_eq (s : RLState) (now : ℚ) :
    wait_if_needed s now =
      ({ request_times := (burstPhase (dropOld (now - BURST_WINDOW) s.request_times) now
            (dailySleep (dailyAdjust s now).1 (dailyAdjust s now).2 now).1).2 ++
            [(burstPhase (dropOld (now - BURST_WINDOW) s.request_times) now
              (dailySleep (dailyAdjust s now).1 (dailyAdjust s now).2 now).1).1],
         daily_count := (dailySleep (dailyAdjust s now).1 (dailyAdjust s now).2 now).2.1 + 1,
         daily_reset_time :=
           (dailySleep (dailyAdjust s now).1 (dailyAdjust s now).2 now).2.2 },
       (burstPhase (dropOld (now - BURST_WINDOW) s.request_times) now
         (dailySleep (dailyAdjust s now).1 (dailyAdjust s now).2 now).1).1) := rfl

theorem wait_step_inv (s : RLState) (c now : ℚ)
    (hsort : s.request_times.Sorted (· ≤ ·))
    (hle : ∀ x ∈ s.request_times, x ≤ c)
    (hcount : strictWindowCount s.request_times c ≤ BURST_RATE_LIMIT)
    (hnow : c < now) :
    (wait_if_needed s now).1.request_times.Sorted (· ≤ ·) ∧
    (∀ x ∈ (wait_if_needed s now).1.request_times, x ≤ (wait_if_needed s now).2) ∧
    strictWindowCount (wait_if_needed s now).1.request_times (wait_if_needed s now).2 ≤
      BURST_RATE_LIMIT := by
  rw [wait_if_needed_eq]
  dsimp only
  have hts_sub : List.Sublist (dropOld (now - BURST_WINDOW) s.request_times)
      s.request_times := dropOld_sublist _ _
  have hts_sorted : (dropOld (now - BURST_WINDOW) s.request_times).Sorted (· ≤ ·) :=
    dropOld_sorted _ _ hsort
  have hts_ge : ∀ x ∈ dropOld (now - BURST_WINDOW) s.request_times,
      now - BURST_WINDOW ≤ x := dropOld_ge _ _ hsort
  have hts_le : ∀ x ∈ dropOld (now - BURST_WINDOW) s.request_times, x ≤ c :=
    fun x hx => hle x (hts_sub.subset hx)
  have hnn : now ≤ (dailySleep (dailyAdjust s now).1 (dailyAdjust s now).2 now).1 :=
    daily_clock_ge s now
  have hlen : (dropOld (now - BURST_WINDOW) s.request_times).length ≤
      BURST_RATE_LIMIT := by
    refine le_trans (sublist_length_le_filter _ s.request_times
      (fun x => decide (c - BURST_WINDOW < x)) hts_sub ?_) hcount
    intro x hx
    exact decide_eq_true (by have := hts_ge x hx; linarith)
  obtain ⟨hcnt, hbsub⟩ := burstPhase_count (dropOld (now - BURST_WINDOW) s.request_times)
    now (dailySleep (dailyAdjust s now).1 (dailyAdjust s now).2 now).1 hts_sorted hlen hnn
  have hclock : (dailySleep (dailyAdjust s now).1 (dailyAdjust s now).2 now).1 ≤
      (burstPhase (dropOld (now - BURST_WINDOW) s.request_times) now
        (dailySleep (dailyAdjust s now).1 (dailyAdjust s now).2 now).1).1 :=
    burstPhase_clock_ge _ _ _
  have hble : ∀ x ∈ (burstPhase (dropOld (now - BURST_WINDOW) s.request_times) now
      (dailySleep (dailyAdjust s now).1 (dailyAdjust s now).2 now).1).2,
      x ≤ (burstPhase (dropOld (now - BURST_WINDOW) s.request_times) now
        (dailySleep (dailyAdjust s now).1 (dailyAdjust s now).2 now).1).1 := by
    intro x hx
    have hxc : x ≤ c := hts_le x (hbsub.subset hx)
    linarith
  refine ⟨?_, ?_, ?_⟩
  · refine List.pairwise_append.mpr ⟨hts_sorted.sublist hbsub,
      List.pairwise_singleton _ _, ?_⟩
    intro x hx y hy
    rw [List.mem_singleton] at hy
    subst hy
    exact hble x hx
  · intro x hx
    rcases List.mem_append.mp hx with hx | hx
    · exact hble x hx
    · rw [List.mem_singleton] at hx
      subst hx
      exact le_refl _
  · rw [strictWindowCount_append_one _ _ _ (by
      have hbw : (0:ℚ) < BURST_WINDOW := by norm_num [BURST_WINDOW]
      linarith)]
    omega

theorem strictCalls_cons (c : ℚ) (s : RLState) (t : ℚ) (ts : List ℚ) :
    strictCalls c s (t :: ts) =
      (decide (c < t) && strictCalls (wait_if_needed s t).2 (wait_if_needed s t).1 ts) :=
  rfl

theorem runRL_cons (s : RLState) (t : ℚ) (ts : List ℚ) :
    runRL s (t :: ts) = wait_if_needed s t :: runRL (wait_if_needed s t).1 ts := rfl

theorem runRL_inv : ∀ (trace : List ℚ) (s : RLState) (c : ℚ),
    s.request_times.Sorted (· ≤ ·) → (∀ x ∈ s.request_times, x ≤ c) →
    strictWindowCount s.request_times c ≤ BURST_RATE_LIMIT →
    strictCalls c s trace = true →
    ∀ r ∈ runRL s trace, strictWindowCount r.1.request_times r.2 ≤ BURST_RATE_LIMIT
  | [], s, c, _, _, _, _, r, hr => by simp [runRL] at hr
  | t :: ts, s, c, hsort, hle, hcount, hvalid, r, hr => by
    rw [strictCalls_cons, Bool.and_eq_true] at hvalid
    obtain ⟨hct, hrest⟩ := hvalid
    have hct : c < t := of_decide_eq_true hct
    obtain ⟨hs1, hb1, hc1⟩ := wait_step_inv s c t hsort hle hcount hct
    rw [runRL_cons] at hr
    rcases List.mem_cons.mp hr with rfl | hr
    · exact hc1
    · exact runRL_inv ts (wait_if_needed s t).1 (wait_if_needed s t).2 hs1 hb1 hc1 hrest r hr

/-- Claim C4 is false as stated: 50 calls at clock 0 followed by one call at
    clock 10 (exactly the moment the oldest timestamp reaches the window
    boundary) make `wait_time` zero, so the 51st call is permitted without
    sleeping and, at the moment its timestamp is recorded, 51 recorded
    timestamps lie within the trailing 10-second window (boundary included,
    as the code's own cleanup counts it). With one call at 0, 49 at 5 and
    two at 10, even the count of timestamps STRICTLY inside the window
    reaches 51, so only strictly-spaced calls admit the strict bound. -/
theorem C4_counterexample :
    validCalls 0 (initRL 0) (List.replicate 50 (0:ℚ) ++ [10]) = true ∧
    inWindowCount
        ((runRL (initRL 0) (List.replicate 50 (0:ℚ) ++ [10])).getLastD
          (initRL 0, 0)).1.request_times
        ((runRL (initRL 0) (List.replicate 50 (0:ℚ) ++ [10])).getLastD
          (initRL 0, 0)).2 = BURST_RATE_LIMIT + 1 ∧
    validCalls 0 (initRL 0) ([0] ++ List.replicate 49 (5:ℚ) ++ [10, 10]) = true ∧
    strictWindowCount
        ((runRL (initRL 0) ([0] ++ List.replicate 49 (5:ℚ) ++ [10, 10])).getLastD
          (initRL 0, 0)).1.request_times
        ((runRL (initRL 0) ([0] ++ List.replicate 49 (5:ℚ) ++ [10, 10])).getLastD
          (initRL 0, 0)).2 = BURST_RATE_LIMIT + 1 :=
  ⟨by with_unfolding_all rfl, by with_unfolding_all rfl,
   by with_unfolding_all rfl, by with_unfolding_all rfl⟩

/-- Claim C4 amended: when every call enters strictly after the previous one
    returned, the number of recorded timestamps strictly inside the trailing
    10-second window at the moment a call's timestamp is recorded never
    exceeds the burst limit of 50 (at the exact window boundary, a
    zero-length wait lets the boundary timestamp make it 51, as the
    counterexample shows). -/
theorem C4_burst_window :
    ∀ trace : List ℚ, strictCalls 0 (initRL 0) trace = true →
      ∀ r ∈ runRL (initRL 0) trace,
        strictWindowCount r.1.request_times r.2 ≤ BURST_RATE_LIMIT := by
  intro trace h
  exact runRL_inv trace (initRL 0) 0 (by simp [initRL]) (by simp [initRL])
    (by simp [initRL, strictWindowCount]) h

/-- C4 at a concrete input: a single call at clock 1 keeps the strict
    window count within the burst limit. -/
theorem C4_witness :
    strictCalls 0 (initRL 0) [1] = true ∧
    strictWindowCount (wait_if_needed (initRL 0) 1).1.request_times
        (wait_if_needed (initRL 0) 1).2 ≤ BURST_RATE_LIMIT :=
  ⟨by with_unfolding_all rfl,
   C4_burst_window [1] (by with_unfolding_all rfl) (wait_if_needed (initRL 0) 1)
     (by rw [show runRL (initRL 0) [1] = [wait_if_needed (initRL 0) 1] from rfl]
         exact List.mem_singleton.mpr rfl)⟩

end AboutMe
